import Mathlib

/-!
# Verification of the TMZ RSS feed builder (`scripts/build-rss.mjs`)

The repository builds a five-item RSS feed from TMZ's public sitemaps.  The
script exists in two variants that share constants and helpers:

* the *sitemap variant*: fetch the article sitemap index, sort its entries by
  `lastmod` (newest first), fetch the newest article sitemap, keep the first
  `MAX_ITEMS` entries that carry an image location, and emit a feed whose
  titles are derived from the URL slug;
* the *secondary-fetch variant*: fetch the Google News sitemap, keep entries
  whose `loc` and `news:title` are plain strings, then for up to 25 of them
  fetch the article page and scan it for an Open Graph / Twitter-card image,
  stopping after `MAX_ITEMS` successes.

JavaScript strings are modelled as `List Char` so that every operation the
script performs (trim, lowercase, substring containment, splitting on `/`)
is an executable Lean function.  Network fetches are modelled as explicit
function arguments (the contents of the remote documents); exceptions are
modelled with `Except`; the output file is the payload of a successful run
(`writtenFile`), so a run that ends in `Except.error` writes nothing.
-/

namespace TmzRss

/-- JavaScript strings are modelled as lists of characters. -/
abbrev Str := List Char

/-- Whitespace test used by the model of `String.prototype.trim`. -/
def isWs (c : Char) : Bool := c = ' ' || c = '\t' || c = '\n' || c = '\r'

/-- Model of `String.prototype.trim`: drop leading and trailing whitespace. -/
def trim (s : Str) : Str :=
  ((s.dropWhile isWs).reverse.dropWhile isWs).reverse

/-- Lexicographic comparison of strings by character code, modelling the
comparator `(b.lastmod || "").localeCompare(a.lastmod || "")` used by the
script on ISO-8601 timestamp strings (for which locale collation and code
point order agree). -/
def lexLe : Str → Str → Bool
  | [], _ => true
  | _ :: _, [] => false
  | a :: as, b :: bs =>
    if a.toNat < b.toNat then true
    else if b.toNat < a.toNat then false
    else lexLe as bs

/-- A `<sitemap>` element of the sitemap index, as seen through the cheerio
queries of `parseSitemapIndex`: the text content of its `<loc>` and
`<lastmod>` children (the empty string when the child is absent). -/
structure SitemapNode where
  loc : Str
  lastmod : Str
deriving DecidableEq

/-- A record pushed onto the `sitemaps` array by `parseSitemapIndex`. -/
structure SitemapEntry where
  loc : Str
  lastmod : Str
deriving DecidableEq

/-- The collection loop of `parseSitemapIndex`: trim `loc` and `lastmod` and
keep the entries whose trimmed `loc` is non-empty. -/
def sitemapEntries (doc : List SitemapNode) : List SitemapEntry :=
  doc.filterMap fun el =>
    let loc := trim el.loc
    if loc = [] then none else some ⟨loc, trim el.lastmod⟩

/-- One insertion step of a stable descending sort by `lastmod`.  The entry
`e` is placed before the first element `f` with `f.lastmod ≤ e.lastmod`, so
strictly newer entries stay in front and entries tying with `e` stay behind
it, exactly as the stable `Array.prototype.sort` with comparator
`(b.lastmod || "").localeCompare(a.lastmod || "")` arranges them. -/
def insertByLastmod (e : SitemapEntry) : List SitemapEntry → List SitemapEntry
  | [] => [e]
  | f :: rest =>
    if lexLe f.lastmod e.lastmod then e :: f :: rest
    else f :: insertByLastmod e rest

/-- Stable sort of the sitemap entries, newest `lastmod` first; models the
`sitemaps.sort(...)` call of `parseSitemapIndex`. -/
def sortByLastmodDesc : List SitemapEntry → List SitemapEntry
  | [] => []
  | e :: rest => insertByLastmod e (sortByLastmodDesc rest)

/-- `parseSitemapIndex`: collect the entries, sort them newest first, and
return the list of locations. -/
def parseSitemapIndex (doc : List SitemapNode) : List Str :=
  (sortByLastmodDesc (sitemapEntries doc)).map SitemapEntry.loc

/-- The descending-order relation on adjacent sorted entries. -/
def lastmodGe (a b : SitemapEntry) : Prop := lexLe b.lastmod a.lastmod = true

/-- A `<url>` element of an article sitemap, as seen through the cheerio
queries of `parseArticleSitemap`: the text of its first `<loc>` child, of the
first `image:loc` nested in an `image:image`, and of the first `image:loc`
descendant anywhere (each empty when the node is absent). -/
structure UrlNode where
  loc : Str
  imageNestedLoc : Str
  imageAnyLoc : Str
deriving DecidableEq

/-- A candidate record `{ url, image }` produced by `parseArticleSitemap`. -/
structure ArticleItem where
  url : Str
  image : Str
deriving DecidableEq

/-- `parseArticleSitemap`: keep the `<url>` entries with a non-empty trimmed
`<loc>` and a non-empty image location, preferring the `image:image image:loc`
form over a bare `image:loc` (the JavaScript `a || b || ""` chain). -/
def parseArticleSitemap (doc : List UrlNode) : List ArticleItem :=
  doc.filterMap fun el =>
    let loc := trim el.loc
    if loc = [] then none
    else
      let imageLoc :=
        if trim el.imageNestedLoc ≠ [] then trim el.imageNestedLoc
        else trim el.imageAnyLoc
      if imageLoc = [] then none else some ⟨loc, imageLoc⟩

/-- Model of JS `String.prototype.includes`: substring containment. -/
def hasSub : Str → Str → Bool
  | [], pat => pat.isEmpty
  | s@(_ :: t), pat => pat.isPrefixOf s || hasSub t pat

/-- Character-wise lowercasing, modelling `String.prototype.toLowerCase` on
the ASCII URLs the script handles. -/
def toLowerStr (s : Str) : Str := s.map Char.toLower

/-- `guessImageType`: lowercase the URL and test `includes(".png")`, then
`includes(".webp")`, defaulting to JPEG. -/
def guessImageType (url : Str) : Str :=
  let lower := toLowerStr url
  if hasSub lower ".png".data then "image/png".data
  else if hasSub lower ".webp".data then "image/webp".data
  else "image/jpeg".data

/-- Model of `url.split("/")`: split at every slash, keeping empty segments
(so `""` splits to `[""]` and `"/"` splits to `["", ""]`, as in JS). -/
def splitSlash : Str → List Str
  | [] => [[]]
  | c :: rest =>
    if c = '/' then [] :: splitSlash rest
    else
      match splitSlash rest with
      | [] => [[c]]
      | seg :: segs => (c :: seg) :: segs

/-- The per-item title derivation of the sitemap variant:
`item.url.split("/").filter(Boolean).slice(-1)[0]` followed by a global
replacement of hyphens with spaces.  `slice(-1)[0]` is `undefined` when no
non-empty segment exists, and calling `.replace` on `undefined` throws; that
failure is modelled as `none`. -/
def fallbackTitle (url : Str) : Option Str :=
  match ((splitSlash url).filter (fun seg => !seg.isEmpty)).getLast? with
  | none => none
  | some seg => some (seg.map (fun c => if c = '-' then ' ' else c))

/-- A fully assembled feed item of the sitemap variant (`feed.item({...})`).
`date` is the timestamp `new Date()` observed during the run. -/
structure FeedItem where
  title : Str
  url : Str
  guid : Str
  date : Nat
  image : Str
  imageType : Str
deriving DecidableEq

/-- `MAX_ITEMS` from the script. -/
def MAX_ITEMS : Nat := 5

/-- The selection of the sitemap variant: `articleItems.slice(0, MAX_ITEMS)`. -/
def sitemapTop (articleItems : List ArticleItem) : List ArticleItem :=
  articleItems.take MAX_ITEMS

def noSitemapsMsg : Str := "No sitemaps found in sitemap index.".data

def typeErrorMsg : Str :=
  "TypeError: Cannot read properties of undefined (reading replace)".data

/-- The sitemap variant's insufficient-items diagnostic
(`Only found ${top.length}/${MAX_ITEMS} items with images in sitemap.`). -/
def sitemapInsufficientMsg (found : Nat) : Str :=
  "Only found ".data ++ (toString found).data ++ "/".data
    ++ (toString MAX_ITEMS).data ++ " items with images in sitemap.".data

/-- The `for (const item of top)` loop building the feed items of the sitemap
variant.  A `TypeError` raised by the title derivation aborts the run, so the
loop is modelled in `Except`. -/
def buildFeedItems (now : Nat) : List ArticleItem → Except Str (List FeedItem)
  | [] => .ok []
  | item :: rest =>
    match fallbackTitle item.url with
    | none => .error typeErrorMsg
    | some t =>
      match buildFeedItems now rest with
      | .error e => .error e
      | .ok items =>
        .ok ({ title := t, url := item.url, guid := item.url, date := now,
               image := item.image, imageType := guessImageType item.image } :: items)

/-- `main` of the sitemap variant, from the point where the sitemap-index XML
has been fetched.  `fetchArticle` maps a sitemap URL to the parsed `<url>`
nodes of that document; `now` is the clock reading used for `new Date()`.
The result is the list of feed items handed to the feed writer, or the error
that terminated the run (in which case `fs.writeFile` is never reached). -/
def mainSitemap (indexDoc : List SitemapNode) (fetchArticle : Str → List UrlNode)
    (now : Nat) : Except Str (List FeedItem) :=
  match parseSitemapIndex indexDoc with
  | [] => .error noSitemapsMsg
  | newestSitemapUrl :: _ =>
    let articleItems := parseArticleSitemap (fetchArticle newestSitemapUrl)
    let top := sitemapTop articleItems
    if top.length < MAX_ITEMS then .error (sitemapInsufficientMsg top.length)
    else buildFeedItems now top

/-- The output file: written with the feed contents exactly when the run
succeeds; a run that errors never reaches `fs.writeFile`. -/
def writtenFile {α : Type} : Except Str α → Option α
  | .ok out => some out
  | .error _ => none

/-- A value produced by `fast-xml-parser` for a leaf field: either a bare
string, or an object carrying the text payload (as happens when the element
has attributes). -/
inductive XVal where
  | str (s : Str)
  | obj (text : Str)
deriving DecidableEq

/-- The `news:news` object of a news-sitemap `<url>` entry. -/
structure NewsNode where
  title : Option XVal
  pubDate : Option XVal
deriving DecidableEq

/-- A `<url>` entry of the parsed news sitemap (`obj.urlset.url`). -/
structure NewsUrlEntry where
  loc : Option XVal
  news : Option NewsNode
deriving DecidableEq

/-- A record pushed by `getLatestNewsItems`. -/
structure NewsItem where
  url : Str
  title : Str
  pubDate : Option Str
deriving DecidableEq

/-- `getLatestNewsItems`, from the point where the news-sitemap XML has been
parsed: keep the entries whose `loc` and `news:title` are both plain strings
(`typeof x !== "string"` skips the entry), trim them, and keep `pubDate`
only when it is a plain string. -/
def getLatestNewsItems (urlset : List NewsUrlEntry) : List NewsItem :=
  urlset.filterMap fun u =>
    match u.loc, u.news.bind NewsNode.title with
    | some (.str loc), some (.str title) =>
      some { url := trim loc, title := trim title,
             pubDate :=
               match u.news.bind NewsNode.pubDate with
               | some (.str p) => some p
               | _ => none }
    | _, _ => none

/-- An article page, as seen through the cheerio queries of `getOgImage`:
the `content` attributes of the three meta tags and the `src` attribute of
the first `<img>` element (`none` when the tag or attribute is absent). -/
structure ArticlePage where
  ogImage : Option Str
  twitterImage : Option Str
  ogImageSecure : Option Str
  firstImgSrc : Option Str
deriving DecidableEq

/-- JS truthiness of a possibly-absent string: `undefined`, `null` and the
empty string are falsy. -/
def jsTruthy : Option Str → Bool
  | none => false
  | some s => !s.isEmpty

/-- The JS `a || b` chain on possibly-absent strings. -/
def jsOr (a b : Option Str) : Option Str := if jsTruthy a then a else b

/-- `normalizeImageUrl`: `null` for a falsy input, prefix `https:` when the
URL is protocol-relative (starts with two slashes), else the URL itself. -/
def normalizeImageUrl : Option Str → Option Str
  | none => none
  | some url =>
    if url.isEmpty then none
    else if ("//".data).isPrefixOf url then some ("https:".data ++ url)
    else some url

/-- `getOgImage`, from the point where the article HTML has been parsed:
try `og:image`, then `twitter:image`, then `og:image:secure_url`, normalize
and return if truthy; otherwise fall back to the first `<img>` src,
normalized. -/
def getOgImage (page : ArticlePage) : Option Str :=
  let img := jsOr page.ogImage (jsOr page.twitterImage page.ogImageSecure)
  match normalizeImageUrl img with
  | some i => some i
  | none => normalizeImageUrl page.firstImgSrc

/-- The observable outcome of `getOgImage(item.url)` for one candidate: the
fetch may throw (`Except.error`), or deliver a parsed page whose scan yields
an optional image. -/
def resolveImage (resolve : Str → Except Unit ArticlePage) (url : Str) :
    Option Str :=
  match resolve url with
  | .error _ => none
  | .ok page => getOgImage page

/-- The `for (const item of toTry)` loop of the secondary-fetch variant with
`k` slots left before `chosen.length >= MAX_ITEMS` breaks the loop: a fetch
error is caught and the candidate skipped, a missing image `continue`s, and
a found image is pushed with the candidate. -/
def chooseItems (resolve : Str → Except Unit ArticlePage) :
    List NewsItem → Nat → List (NewsItem × Str)
  | _, 0 => []
  | [], _ + 1 => []
  | item :: rest, k + 1 =>
    match resolve item.url with
    | .error _ => chooseItems resolve rest (k + 1)
    | .ok page =>
      match getOgImage page with
      | none => chooseItems resolve rest (k + 1)
      | some image => (item, image) :: chooseItems resolve rest k

/-- The candidates of a pool that qualify (their page fetch succeeds and
yields an image), each paired with the image found. -/
def qualifyingPool (resolve : Str → Except Unit ArticlePage)
    (pool : List NewsItem) : List (NewsItem × Str) :=
  pool.filterMap fun item =>
    (resolveImage resolve item.url).map (fun image => (item, image))

/-- The secondary-fetch variant's insufficient-items diagnostic
(`Only found ${chosen.length}/${MAX_ITEMS} items with images. ...`). -/
def newsInsufficientMsg (found : Nat) : Str :=
  "Only found ".data ++ (toString found).data ++ "/".data
    ++ (toString MAX_ITEMS).data
    ++ " items with images. TMZ may be blocking article-page fetches from GitHub Actions.".data

/-- `main` of the secondary-fetch variant, from the point where the news
sitemap has been parsed: try the first 25 news items, choose up to
`MAX_ITEMS` with images, and fail when fewer qualify.  The successful value
is the chosen list handed to the feed writer; on error `fs.writeFile` is
never reached. -/
def mainNews (urlset : List NewsUrlEntry)
    (resolve : Str → Except Unit ArticlePage) :
    Except Str (List (NewsItem × Str)) :=
  let newsItems := getLatestNewsItems urlset
  let toTry := newsItems.take 25
  let chosen := chooseItems resolve toTry MAX_ITEMS
  if chosen.length < MAX_ITEMS then .error (newsInsufficientMsg chosen.length)
  else .ok chosen

/-- The projection of a feed item to the (url, title, imageUrl) tuple the
idempotence property speaks about. -/
def itemTuple (i : FeedItem) : Str × Str × Str := (i.url, i.title, i.image)

/-- Is the parsed field a bare string?  (`typeof x === "string"`.) -/
def isStrVal : Option XVal → Bool
  | some (.str _) => true
  | _ => false

/-- The string carried by a bare-string field (unused default otherwise). -/
def valStr : Option XVal → Str
  | some (.str s) => s
  | _ => []

/-- Restatement of `getLatestNewsItems` in the amended claim's words: keep
exactly the entries whose `loc` and `news:title` are both bare strings, in
document order, trimming url and title. -/
def stringOnlyNewsItems (urlset : List NewsUrlEntry) : List NewsItem :=
  (urlset.filter fun u => isStrVal u.loc && isStrVal (u.news.bind NewsNode.title)).map
    fun u =>
      { url := trim (valStr u.loc),
        title := trim (valStr (u.news.bind NewsNode.title)),
        pubDate :=
          match u.news.bind NewsNode.pubDate with
          | some (.str p) => some p
          | _ => none }

/-- The spec's image priority chain, as the claim words it: the first
available (truthy) value among `og:image`, `twitter:image`,
`og:image:secure_url`, then the first `<img>` src. -/
def specImagePriority (page : ArticlePage) : Option Str :=
  if jsTruthy page.ogImage then page.ogImage
  else if jsTruthy page.twitterImage then page.twitterImage
  else if jsTruthy page.ogImageSecure then page.ogImageSecure
  else page.firstImgSrc

/-- The MIME rule as the claim states it: inspect the URL's lowercased
extension, i.e. its trailing `.png` / `.webp` suffix. -/
def extensionMimeType (url : Str) : Str :=
  let lower := toLowerStr url
  if (".png".data).isSuffixOf lower then "image/png".data
  else if (".webp".data).isSuffixOf lower then "image/webp".data
  else "image/jpeg".data

/-! Concrete documents used by witnesses and counterexamples. -/

/-- A sitemap index with two dated entries and one without `lastmod`. -/
def wIndexDoc : List SitemapNode :=
  [⟨"https://www.tmz.com/sitemaps/article-1.xml".data, "2024-01-01".data⟩,
   ⟨"https://www.tmz.com/sitemaps/article-2.xml".data, "2024-01-02".data⟩,
   ⟨"https://www.tmz.com/sitemaps/article-0.xml".data, []⟩]

/-- A one-entry sitemap index. -/
def wOneIndex : List SitemapNode :=
  [⟨"https://www.tmz.com/sitemaps/article-3.xml".data, "2024-01-02".data⟩]

/-- An article sitemap whose first two `<url>` entries share the same `loc`,
followed by three distinct entries, all with images. -/
def dupArticleDoc : List UrlNode :=
  [⟨"https://www.tmz.com/a-story".data, "https://img.tmz.com/1.jpg".data, []⟩,
   ⟨"https://www.tmz.com/a-story".data, "https://img.tmz.com/1.jpg".data, []⟩,
   ⟨"https://www.tmz.com/b-story".data, "https://img.tmz.com/2.jpg".data, []⟩,
   ⟨"https://www.tmz.com/c-story".data, "https://img.tmz.com/3.jpg".data, []⟩,
   ⟨"https://www.tmz.com/d-story".data, "https://img.tmz.com/4.jpg".data, []⟩]

/-- The feed items the run on `dupArticleDoc` emits: the duplicate candidate
appears twice. -/
def dupFeedItems : List FeedItem :=
  [⟨"a story".data, "https://www.tmz.com/a-story".data,
      "https://www.tmz.com/a-story".data, 0, "https://img.tmz.com/1.jpg".data,
      "image/jpeg".data⟩,
   ⟨"a story".data, "https://www.tmz.com/a-story".data,
      "https://www.tmz.com/a-story".data, 0, "https://img.tmz.com/1.jpg".data,
      "image/jpeg".data⟩,
   ⟨"b story".data, "https://www.tmz.com/b-story".data,
      "https://www.tmz.com/b-story".data, 0, "https://img.tmz.com/2.jpg".data,
      "image/jpeg".data⟩,
   ⟨"c story".data, "https://www.tmz.com/c-story".data,
      "https://www.tmz.com/c-story".data, 0, "https://img.tmz.com/3.jpg".data,
      "image/jpeg".data⟩,
   ⟨"d story".data, "https://www.tmz.com/d-story".data,
      "https://www.tmz.com/d-story".data, 0, "https://img.tmz.com/4.jpg".data,
      "image/jpeg".data⟩]

/-- A news-sitemap entry whose `loc` is a bare string but whose `news:title`
is an object carrying a text payload (as `fast-xml-parser` produces when the
element has attributes). -/
def objTitleEntry : NewsUrlEntry :=
  { loc := some (.str "https://www.tmz.com/story".data),
    news := some { title := some (.obj "Story Title".data), pubDate := none } }

/-- An article page declaring only a protocol-relative `og:image`. -/
def relOgPage : ArticlePage :=
  { ogImage := some "//img.tmz.com/a.jpg".data,
    twitterImage := none, ogImageSecure := none, firstImgSrc := none }

/-- An article page with no image anywhere. -/
def emptyPage : ArticlePage :=
  { ogImage := none, twitterImage := none, ogImageSecure := none,
    firstImgSrc := none }

/-- A news item used in witnesses. -/
def wNewsItem : NewsItem :=
  { url := "https://www.tmz.com/x-story".data, title := "X Story".data,
    pubDate := none }

/-! Helper lemmas. -/

theorem lexLe_refl (s : Str) : lexLe s s = true := by
  induction s with
  | nil => rfl
  | cons a as ih => simp [lexLe, ih]

theorem lexLe_nil (s : Str) : lexLe [] s = true := rfl

theorem lexLe_nil_right {s : Str} (h : lexLe s [] = true) : s = [] := by
  cases s with
  | nil => rfl
  | cons a as => simp [lexLe] at h

theorem lexLe_total (a b : Str) : lexLe a b = true ∨ lexLe b a = true := by
  induction a generalizing b with
  | nil => exact Or.inl rfl
  | cons x xs ih =>
    cases b with
    | nil => exact Or.inr rfl
    | cons y ys =>
      by_cases h1 : x.toNat < y.toNat
      · exact Or.inl (by simp [lexLe, h1])
      · by_cases h2 : y.toNat < x.toNat
        · exact Or.inr (by simp [lexLe, h2])
        · rcases ih ys with h | h
          · exact Or.inl (by simp [lexLe, h1, h2, h])
          · exact Or.inr (by simp [lexLe, h1, h2, h])

theorem lexLe_trans {a b c : Str} (h1 : lexLe a b = true) (h2 : lexLe b c = true) :
    lexLe a c = true := by
  induction a generalizing b c with
  | nil => rfl
  | cons x xs ih =>
    cases b with
    | nil => simp [lexLe] at h1
    | cons y ys =>
      cases c with
      | nil => simp [lexLe] at h2
      | cons z zs =>
        simp only [lexLe] at h1 h2 ⊢
        by_cases hxy : x.toNat < y.toNat
        · by_cases hyz : y.toNat < z.toNat
          · have hxz : x.toNat < z.toNat := hxy.trans hyz
            simp [hxz]
          · rw [if_neg hyz] at h2
            by_cases hzy : z.toNat < y.toNat
            · simp [hzy] at h2
            · have hxz : x.toNat < z.toNat := by omega
              simp [hxz]
        · rw [if_neg hxy] at h1
          by_cases hyx : y.toNat < x.toNat
          · simp [hyx] at h1
          · rw [if_neg hyx] at h1
            by_cases hyz : y.toNat < z.toNat
            · have hxz : x.toNat < z.toNat := by omega
              simp [hxz]
            · rw [if_neg hyz] at h2
              by_cases hzy : z.toNat < y.toNat
              · simp [hzy] at h2
              · rw [if_neg hzy] at h2
                have hxz1 : ¬ x.toNat < z.toNat := by omega
                have hxz2 : ¬ z.toNat < x.toNat := by omega
                simp only [hxz1, hxz2, if_neg, if_false]
                exact ih h1 h2

theorem insertByLastmod_perm (e : SitemapEntry) (l : List SitemapEntry) :
    List.Perm (insertByLastmod e l) (e :: l) := by
  induction l with
  | nil => exact List.Perm.refl _
  | cons f rest ih =>
    by_cases h : lexLe f.lastmod e.lastmod
    · simp only [insertByLastmod, h, if_pos]
      exact List.Perm.refl _
    · simp only [insertByLastmod, h, if_neg, Bool.not_eq_true]
      exact List.Perm.trans (List.Perm.cons f ih) (List.Perm.swap e f rest)

theorem sortByLastmodDesc_perm (l : List SitemapEntry) :
    List.Perm (sortByLastmodDesc l) l := by
  induction l with
  | nil => exact List.Perm.refl _
  | cons e rest ih =>
    exact List.Perm.trans (insertByLastmod_perm e _) (List.Perm.cons e ih)

theorem pairwise_insertByLastmod {l : List SitemapEntry} (e : SitemapEntry)
    (h : l.Pairwise lastmodGe) : (insertByLastmod e l).Pairwise lastmodGe := by
  induction l with
  | nil => simp [insertByLastmod, List.Pairwise]
  | cons f rest ih =>
    rcases List.pairwise_cons.mp h with ⟨hf, hrest⟩
    by_cases hle : lexLe f.lastmod e.lastmod
    · simp only [insertByLastmod, hle, if_pos]
      refine List.pairwise_cons.mpr ⟨?_, h⟩
      intro b hb
      rcases List.mem_cons.mp hb with rfl | hb
      · exact hle
      · exact lexLe_trans (hf b hb) hle
    · simp only [insertByLastmod, hle, if_neg, Bool.not_eq_true]
      refine List.pairwise_cons.mpr ⟨?_, ih hrest⟩
      intro b hb
      have hb2 := (insertByLastmod_perm e rest).mem_iff.mp hb
      rcases List.mem_cons.mp hb2 with rfl | hb2
      · rcases lexLe_total b.lastmod f.lastmod with hx | hx
        · exact hx
        · exact absurd hx (by simpa using hle)
      · exact hf b hb2

theorem pairwise_sortByLastmodDesc (l : List SitemapEntry) :
    (sortByLastmodDesc l).Pairwise lastmodGe := by
  induction l with
  | nil => simp [sortByLastmodDesc, List.Pairwise]
  | cons e rest ih => exact pairwise_insertByLastmod e ih

theorem filter_insertByLastmod (e : SitemapEntry) (l : List SitemapEntry) (m : Str) :
    (insertByLastmod e l).filter (fun f => decide (f.lastmod = m)) =
      ((e :: l).filter (fun f => decide (f.lastmod = m))) := by
  induction l with
  | nil => rfl
  | cons f rest ih =>
    by_cases hle : lexLe f.lastmod e.lastmod
    · simp [insertByLastmod, hle]
    · have hne : f.lastmod ≠ e.lastmod := by
        intro hcontra
        exact hle (hcontra ▸ lexLe_refl f.lastmod)
      simp only [insertByLastmod, hle, if_neg, Bool.not_eq_true]
      by_cases hem : e.lastmod = m
      · have hfm : ¬ f.lastmod = m := fun hc => hne (hc.trans hem.symm)
        simp [List.filter, hem, hfm, ih]
      · by_cases hfm : f.lastmod = m
        · simp [List.filter, hem, hfm, ih]
        · simp [List.filter, hem, hfm, ih]

theorem filter_sortByLastmodDesc (l : List SitemapEntry) (m : Str) :
    (sortByLastmodDesc l).filter (fun f => decide (f.lastmod = m)) =
      l.filter (fun f => decide (f.lastmod = m)) := by
  induction l with
  | nil => rfl
  | cons e rest ih =>
    calc (sortByLastmodDesc (e :: rest)).filter (fun f => decide (f.lastmod = m))
        = ((e :: sortByLastmodDesc rest).filter (fun f => decide (f.lastmod = m))) :=
          filter_insertByLastmod e _ m
      _ = ((e :: rest).filter (fun f => decide (f.lastmod = m))) := by
          by_cases hem : e.lastmod = m <;> simp [List.filter, hem, ih]

theorem chooseItems_eq (resolve : Str → Except Unit ArticlePage)
    (pool : List NewsItem) (k : Nat) :
    chooseItems resolve pool k = (qualifyingPool resolve pool).take k := by
  induction pool generalizing k with
  | nil => cases k <;> rfl
  | cons item rest ih =>
    cases k with
    | zero => rfl
    | succ k =>
      simp only [chooseItems, qualifyingPool, List.filterMap_cons, resolveImage]
      cases hres : resolve item.url with
      | error e => simpa [qualifyingPool] using ih (k + 1)
      | ok page =>
        cases himg : getOgImage page with
        | none =>
          simp only [himg]
          simpa [qualifyingPool] using ih (k + 1)
        | some image =>
          simp only [himg]
          simp [qualifyingPool, resolveImage, List.take, ih k]

theorem buildFeedItems_length {now : Nat} :
    ∀ {l : List ArticleItem} {items : List FeedItem},
      buildFeedItems now l = .ok items → items.length = l.length := by
  intro l
  induction l with
  | nil =>
    intro items h
    simp only [buildFeedItems] at h
    cases h
    rfl
  | cons item rest ih =>
    intro items h
    simp only [buildFeedItems] at h
    cases hft : fallbackTitle item.url with
    | none => rw [hft] at h; cases h
    | some t =>
      rw [hft] at h
      cases hrest : buildFeedItems now rest with
      | error e => rw [hrest] at h; cases h
      | ok tail =>
        rw [hrest] at h
        cases h
        simp [ih hrest]

theorem buildFeedItems_tuples (now1 now2 : Nat) (l : List ArticleItem) :
    (buildFeedItems now1 l).map (List.map itemTuple)
      = (buildFeedItems now2 l).map (List.map itemTuple) := by
  induction l with
  | nil => rfl
  | cons item rest ih =>
    simp only [buildFeedItems]
    cases fallbackTitle item.url with
    | none => rfl
    | some t =>
      cases h1 : buildFeedItems now1 rest with
      | error e =>
        cases h2 : buildFeedItems now2 rest with
        | error e2 =>
          rw [h1, h2] at ih
          simp only [Except.map] at ih ⊢
          cases ih
          rfl
        | ok tail2 =>
          rw [h1, h2] at ih
          simp [Except.map] at ih
      | ok tail1 =>
        cases h2 : buildFeedItems now2 rest with
        | error e2 =>
          rw [h1, h2] at ih
          simp [Except.map] at ih
        | ok tail2 =>
          rw [h1, h2] at ih
          simp only [Except.map, Except.ok.injEq] at ih ⊢
          simp [itemTuple, ih]

theorem map_fst_qualifyingPool (resolve : Str → Except Unit ArticlePage)
    (pool : List NewsItem) :
    (qualifyingPool resolve pool).map Prod.fst
      = pool.filter (fun item => (resolveImage resolve item.url).isSome) := by
  induction pool with
  | nil => rfl
  | cons item rest ih =>
    simp only [qualifyingPool, List.filterMap_cons] at *
    cases h : resolveImage resolve item.url with
    | none => simp [h, List.filter_cons, ih]
    | some image => simp [h, List.filter_cons, ih]

theorem normalizeImageUrl_falsy {o : Option Str} (h : jsTruthy o = false) :
    normalizeImageUrl o = none := by
  cases o with
  | none => rfl
  | some s =>
    simp only [jsTruthy, Bool.not_eq_false'] at h
    simp [normalizeImageUrl, h]

theorem normalizeImageUrl_truthy {o : Option Str} (h : jsTruthy o = true) :
    ∃ i, normalizeImageUrl o = some i := by
  cases o with
  | none => simp [jsTruthy] at h
  | some s =>
    simp only [jsTruthy, Bool.not_eq_true'] at h
    by_cases hp : ("//".data).isPrefixOf s
    · exact ⟨"https:".data ++ s, by simp [normalizeImageUrl, h, hp]⟩
    · exact ⟨s, by simp [normalizeImageUrl, h, hp]⟩

theorem normalizeImageUrl_no_protocol_relative {o : Option Str} {s : Str}
    (h : normalizeImageUrl o = some s) : ("//".data).isPrefixOf s = false := by
  cases o with
  | none => cases h
  | some url =>
    simp only [normalizeImageUrl] at h
    by_cases he : url.isEmpty
    · simp [he] at h
    · by_cases hp : ("//".data).isPrefixOf url
      · simp only [he, hp, if_true, if_false, Bool.false_eq_true, Option.some.injEq] at h
        subst h
        simp [List.isPrefixOf]
      · simp only [he, hp, if_false, Bool.false_eq_true, Option.some.injEq] at h
        subst h
        simp only [Bool.not_eq_true] at hp
        exact hp

theorem splitSlash_ne_nil (s : Str) : splitSlash s ≠ [] := by
  cases s with
  | nil => simp [splitSlash]
  | cons c rest =>
    by_cases hc : c = '/'
    · simp [splitSlash, hc]
    · simp only [splitSlash, hc, if_false]
      cases splitSlash rest <;> simp

theorem splitSlash_exists_nonempty (s : Str) :
    (∃ seg ∈ splitSlash s, seg ≠ []) ↔ ∃ c ∈ s, c ≠ '/' := by
  induction s with
  | nil => simp [splitSlash]
  | cons c rest ih =>
    by_cases hc : c = '/'
    · subst hc
      simp only [splitSlash, if_pos]
      simp [ih]
    · simp only [splitSlash, hc, if_false]
      rcases hsp : splitSlash rest with _ | ⟨seg, segs⟩
      · exact absurd hsp (splitSlash_ne_nil rest)
      · constructor
        · intro _
          exact ⟨c, List.mem_cons_self c rest, hc⟩
        · intro _
          exact ⟨c :: seg, List.mem_cons_self _ _, by simp⟩

/-- Claim C2: `parseSitemapIndex` returns the entry locations sorted
descending by `lastmod` compared as strings: the sorted entries are pairwise
descending, entries sharing a `lastmod` keep their original document order
(the filter to any fixed `lastmod` is unchanged by the sort), an entry with
an empty `lastmod` is never followed by one with a non-empty `lastmod`, and
the first returned URL belongs to an entry whose `lastmod` is maximal among
all collected entries. -/
theorem parseSitemapIndex_sorted_desc (doc : List SitemapNode) :
    (sortByLastmodDesc (sitemapEntries doc)).Pairwise lastmodGe
    ∧ (∀ m : Str,
        (sortByLastmodDesc (sitemapEntries doc)).filter (fun f => decide (f.lastmod = m))
          = (sitemapEntries doc).filter (fun f => decide (f.lastmod = m)))
    ∧ (sortByLastmodDesc (sitemapEntries doc)).Pairwise
        (fun a b => a.lastmod = [] → b.lastmod = [])
    ∧ (∀ (u : Str) (rest : List Str), parseSitemapIndex doc = u :: rest →
        ∃ e, e ∈ sitemapEntries doc ∧ e.loc = u ∧
          ∀ e2, e2 ∈ sitemapEntries doc → lexLe e2.lastmod e.lastmod = true) := by
  refine ⟨pairwise_sortByLastmodDesc _, filter_sortByLastmodDesc _, ?_, ?_⟩
  · refine (pairwise_sortByLastmodDesc _).imp ?_
    intro a b hab ha
    unfold lastmodGe at hab
    rw [ha] at hab
    exact lexLe_nil_right hab
  · intro u rest hparse
    unfold parseSitemapIndex at hparse
    cases hs : sortByLastmodDesc (sitemapEntries doc) with
    | nil => rw [hs] at hparse; cases hparse
    | cons e tail =>
      rw [hs] at hparse
      simp only [List.map_cons, List.cons.injEq] at hparse
      refine ⟨e, ?_, hparse.1, ?_⟩
      · have he : e ∈ sortByLastmodDesc (sitemapEntries doc) := by
          rw [hs]; exact List.mem_cons_self e tail
        exact (sortByLastmodDesc_perm _).mem_iff.mp he
      · intro e2 he2
        have h2 : e2 ∈ sortByLastmodDesc (sitemapEntries doc) :=
          (sortByLastmodDesc_perm _).mem_iff.mpr he2
        rw [hs] at h2
        rcases List.mem_cons.mp h2 with rfl | h2
        · exact lexLe_refl _
        · have hp := pairwise_sortByLastmodDesc (sitemapEntries doc)
          rw [hs] at hp
          exact (List.pairwise_cons.mp hp).1 e2 h2

/-- Witness for C2 on a concrete sitemap index: the first returned URL is the
entry dated `2024-01-02`, whose `lastmod` dominates the other entries',
and filtering the sorted entries to a tied `lastmod` reproduces document
order. -/
theorem parseSitemapIndex_sorted_desc_witness :
    ((sortByLastmodDesc (sitemapEntries wIndexDoc)).filter
        (fun f => decide (f.lastmod = "2024-01-01".data))
      = (sitemapEntries wIndexDoc).filter
          (fun f => decide (f.lastmod = "2024-01-01".data)))
    ∧ (∃ e, e ∈ sitemapEntries wIndexDoc
        ∧ e.loc = "https://www.tmz.com/sitemaps/article-2.xml".data
        ∧ ∀ e2, e2 ∈ sitemapEntries wIndexDoc →
            lexLe e2.lastmod e.lastmod = true) :=
  ⟨(parseSitemapIndex_sorted_desc wIndexDoc).2.1 _,
   (parseSitemapIndex_sorted_desc wIndexDoc).2.2.2 _
     ["https://www.tmz.com/sitemaps/article-1.xml".data,
      "https://www.tmz.com/sitemaps/article-0.xml".data] rfl⟩

/-- Claim C1: in both variants, when fewer than `MAX_ITEMS` candidates
qualify after scanning the bounded candidate pool (the whole article sitemap,
resp. the first 25 news items), the run stops with the explicit
insufficient-items error and no output file is written; and a successful run
always carries exactly `MAX_ITEMS` items, never fewer. -/
theorem insufficient_items_abort_run :
    (∀ (indexDoc : List SitemapNode) (fetchArticle : Str → List UrlNode)
       (now : Nat) (newest : Str) (rest : List Str),
        parseSitemapIndex indexDoc = newest :: rest →
        (parseArticleSitemap (fetchArticle newest)).length < MAX_ITEMS →
        mainSitemap indexDoc fetchArticle now =
            .error (sitemapInsufficientMsg
              (parseArticleSitemap (fetchArticle newest)).length)
          ∧ writtenFile (mainSitemap indexDoc fetchArticle now) = none)
    ∧ (∀ (indexDoc : List SitemapNode) (fetchArticle : Str → List UrlNode)
         (now : Nat) (items : List FeedItem),
        mainSitemap indexDoc fetchArticle now = .ok items →
        items.length = MAX_ITEMS)
    ∧ (∀ (urlset : List NewsUrlEntry) (resolve : Str → Except Unit ArticlePage),
        (qualifyingPool resolve ((getLatestNewsItems urlset).take 25)).length
            < MAX_ITEMS →
        mainNews urlset resolve =
            .error (newsInsufficientMsg
              (qualifyingPool resolve
                ((getLatestNewsItems urlset).take 25)).length)
          ∧ writtenFile (mainNews urlset resolve) = none)
    ∧ (∀ (urlset : List NewsUrlEntry) (resolve : Str → Except Unit ArticlePage)
         (chosen : List (NewsItem × Str)),
        mainNews urlset resolve = .ok chosen → chosen.length = MAX_ITEMS) := by
  refine ⟨?_, ?_, ?_, ?_⟩
  · intro indexDoc fetchArticle now newest rest hparse hlen
    have hmain : mainSitemap indexDoc fetchArticle now =
        .error (sitemapInsufficientMsg
          (parseArticleSitemap (fetchArticle newest)).length) := by
      have hlen2 : (sitemapTop (parseArticleSitemap (fetchArticle newest))).length
          = (parseArticleSitemap (fetchArticle newest)).length := by
        simp only [sitemapTop, List.length_take]
        exact min_eq_right (le_of_lt hlen)
      simp only [mainSitemap, hparse, hlen2, if_pos hlen]
    exact ⟨hmain, by rw [hmain]; rfl⟩
  · intro indexDoc fetchArticle now items hok
    cases hparse : parseSitemapIndex indexDoc with
    | nil => simp only [mainSitemap, hparse] at hok; cases hok
    | cons newest rest =>
      simp only [mainSitemap, hparse] at hok
      by_cases hlt :
          (sitemapTop (parseArticleSitemap (fetchArticle newest))).length < MAX_ITEMS
      · rw [if_pos hlt] at hok; cases hok
      · rw [if_neg hlt] at hok
        have h1 := buildFeedItems_length hok
        have h2 : (sitemapTop (parseArticleSitemap (fetchArticle newest))).length
            ≤ MAX_ITEMS := List.length_take_le _ _
        simp only [MAX_ITEMS] at *
        omega
  · intro urlset resolve hq
    have hmain : mainNews urlset resolve =
        .error (newsInsufficientMsg
          (qualifyingPool resolve ((getLatestNewsItems urlset).take 25)).length) := by
      have hlen2 :
          ((qualifyingPool resolve ((getLatestNewsItems urlset).take 25)).take
              MAX_ITEMS).length
            = (qualifyingPool resolve ((getLatestNewsItems urlset).take 25)).length := by
        rw [List.length_take]
        exact min_eq_right (le_of_lt hq)
      simp only [mainNews, chooseItems_eq, hlen2, if_pos hq]
    exact ⟨hmain, by rw [hmain]; rfl⟩
  · intro urlset resolve chosen hok
    simp only [mainNews, chooseItems_eq] at hok
    set Q := qualifyingPool resolve ((getLatestNewsItems urlset).take 25) with hQ
    by_cases hlt : (Q.take MAX_ITEMS).length < MAX_ITEMS
    · rw [if_pos hlt] at hok; cases hok
    · rw [if_neg hlt] at hok
      cases hok
      have h2 : (Q.take MAX_ITEMS).length ≤ MAX_ITEMS := List.length_take_le _ _
      simp only [MAX_ITEMS] at *
      omega

/-- Witness for C1: with an empty article sitemap the sitemap variant stops
with the insufficient-items error (zero found) and writes nothing, and with
every secondary fetch failing the news variant does the same. -/
theorem insufficient_items_abort_run_witness :
    (mainSitemap wOneIndex (fun _ => []) 0 = .error (sitemapInsufficientMsg 0)
      ∧ writtenFile (mainSitemap wOneIndex (fun _ => []) 0) = none)
    ∧ (mainNews [] (fun _ => .error ()) = .error (newsInsufficientMsg 0)
      ∧ writtenFile (mainNews [] (fun _ => .error ())) = none) :=
  ⟨insufficient_items_abort_run.1 wOneIndex (fun _ => []) 0 _ [] rfl (by decide),
   insufficient_items_abort_run.2.2.1 [] (fun _ => .error ()) (by decide)⟩

/-- Counterexample to claim C3: the code performs no URL deduplication.  On
an article sitemap whose first two entries share the same URL the run
succeeds and the emitted feed contains that URL twice, so the final item
list is not duplicate-free. -/
theorem selection_dedup_counterexample :
    mainSitemap wOneIndex (fun _ => dupArticleDoc) 0 = .ok dupFeedItems
    ∧ ¬ ((dupFeedItems.map FeedItem.url).Nodup) :=
  ⟨rfl, by decide⟩

/-- Claim C3, amended: neither variant deduplicates by URL.  The sitemap
variant's selection is literally the first `MAX_ITEMS` candidates of the
pool, position by position, and the secondary-fetch variant's selection is
the first `MAX_ITEMS` qualifying candidates with multiplicity, so candidates
sharing a URL each keep their place in the final selection. -/
theorem selection_no_dedup :
    (∀ (pool : List ArticleItem) (i : Nat), i < MAX_ITEMS →
        (sitemapTop pool)[i]? = pool[i]?)
    ∧ (∀ (resolve : Str → Except Unit ArticlePage) (pool : List NewsItem)
         (k : Nat),
        chooseItems resolve pool k = (qualifyingPool resolve pool).take k) := by
  constructor
  · intro pool i hi
    simp [sitemapTop, List.getElem?_take, hi]
  · exact chooseItems_eq

/-- Witness for the amended C3: in the duplicated-pool run, position 1 of the
selection is position 1 of the pool (the duplicate, not a deduplicated
successor). -/
theorem selection_no_dedup_witness :
    (sitemapTop (parseArticleSitemap dupArticleDoc))[1]?
      = (parseArticleSitemap dupArticleDoc)[1]? :=
  selection_no_dedup.1 _ 1 (by decide)

/-- Claim C4: in both variants the selection is a subsequence of the ordered
candidate pool and never exceeds `MAX_ITEMS` elements. -/
theorem selection_sublist_bounded :
    (∀ pool : List ArticleItem,
        (sitemapTop pool).Sublist pool ∧ (sitemapTop pool).length ≤ MAX_ITEMS)
    ∧ (∀ (resolve : Str → Except Unit ArticlePage) (pool : List NewsItem),
        ((chooseItems resolve pool MAX_ITEMS).map Prod.fst).Sublist pool
          ∧ (chooseItems resolve pool MAX_ITEMS).length ≤ MAX_ITEMS) := by
  constructor
  · intro pool
    exact ⟨List.take_sublist _ _, List.length_take_le _ _⟩
  · intro resolve pool
    constructor
    · rw [chooseItems_eq, List.map_take]
      refine List.Sublist.trans (List.take_sublist _ _) ?_
      rw [map_fst_qualifyingPool]
      exact List.filter_sublist _
    · rw [chooseItems_eq]
      exact List.length_take_le _ _

/-- Counterexample to claim C5: an entry whose `news:title` is an object
with a text payload is dropped by `getLatestNewsItems`, not normalized to a
string and returned as the claim asserts. -/
theorem news_object_title_dropped_counterexample :
    getLatestNewsItems [objTitleEntry] = []
    ∧ getLatestNewsItems [objTitleEntry] ≠
        [{ url := "https://www.tmz.com/story".data,
           title := "Story Title".data, pubDate := none }] :=
  ⟨rfl, by decide⟩

/-- Claim C5, amended: `getLatestNewsItems` returns exactly the URL entries
whose location and namespaced news title are both bare strings, in document
order, with trimmed url and title (and the publication date kept only when
it is a bare string); entries whose `loc` or title is missing or is an
object are dropped. -/
theorem getLatestNewsItems_strings_only (urlset : List NewsUrlEntry) :
    getLatestNewsItems urlset = stringOnlyNewsItems urlset := by
  induction urlset with
  | nil => rfl
  | cons u rest ih =>
    have hcases : ∀ x : Option XVal,
        x = none ∨ (∃ s, x = some (.str s)) ∨ (∃ t, x = some (.obj t)) := by
      intro x
      rcases x with _ | v
      · exact Or.inl rfl
      · rcases v with s | t
        · exact Or.inr (Or.inl ⟨s, rfl⟩)
        · exact Or.inr (Or.inr ⟨t, rfl⟩)
    have isStrVal_none : isStrVal none = false := rfl
    have isStrVal_str : ∀ s : Str, isStrVal (some (.str s)) = true := fun _ => rfl
    have isStrVal_obj : ∀ t : Str, isStrVal (some (.obj t)) = false := fun _ => rfl
    have valStr_str : ∀ s : Str, valStr (some (.str s)) = s := fun _ => rfl
    rcases hcases u.loc with h1 | ⟨s, h1⟩ | ⟨t, h1⟩ <;>
      rcases hcases (u.news.bind NewsNode.title) with h2 | ⟨s2, h2⟩ | ⟨t2, h2⟩ <;>
      simp only [getLatestNewsItems, stringOnlyNewsItems] at ih <;>
      simp [getLatestNewsItems, stringOnlyNewsItems, List.filterMap_cons,
        List.filter_cons, h1, h2, isStrVal_none, isStrVal_str, isStrVal_obj,
        valStr_str, ih]

/-- Claim C6: `getOgImage` returns the first available (truthy) value in the
priority order og:image, twitter:image, og:image:secure_url, first `<img>`
src; the returned value is the normalization of that choice, a returned
value never starts with `//`, and a protocol-relative choice is returned
with `https:` prefixed. -/
theorem getOgImage_priority (page : ArticlePage) :
    getOgImage page = normalizeImageUrl (specImagePriority page)
    ∧ (∀ s, getOgImage page = some s → ("//".data).isPrefixOf s = false)
    ∧ (∀ u, specImagePriority page = some u →
        ("//".data).isPrefixOf u = true →
        getOgImage page = some ("https:".data ++ u)) := by
  have hmain : getOgImage page = normalizeImageUrl (specImagePriority page) := by
    unfold getOgImage specImagePriority jsOr
    cases hb1 : jsTruthy page.ogImage with
    | true =>
      rcases normalizeImageUrl_truthy hb1 with ⟨i, hi⟩
      simp [hb1, hi]
    | false =>
      cases hb2 : jsTruthy page.twitterImage with
      | true =>
        rcases normalizeImageUrl_truthy hb2 with ⟨i, hi⟩
        simp [hb1, hb2, hi]
      | false =>
        cases hb3 : jsTruthy page.ogImageSecure with
        | true =>
          rcases normalizeImageUrl_truthy hb3 with ⟨i, hi⟩
          simp [hb1, hb2, hb3, hi]
        | false =>
          simp [hb1, hb2, hb3, normalizeImageUrl_falsy hb3]
  refine ⟨hmain, ?_, ?_⟩
  · intro s hs
    rw [hmain] at hs
    exact normalizeImageUrl_no_protocol_relative hs
  · intro u hu hpre
    rw [hmain, hu]
    cases u with
    | nil => simp [List.isPrefixOf] at hpre
    | cons c t => simp [normalizeImageUrl, hpre]

/-- Witness for C6: a page declaring only a protocol-relative og:image
resolves to that URL with `https:` prefixed, and the result does not start
with `//`. -/
theorem getOgImage_priority_witness :
    getOgImage relOgPage = some ("https:".data ++ "//img.tmz.com/a.jpg".data)
    ∧ ("//".data).isPrefixOf ("https:".data ++ "//img.tmz.com/a.jpg".data)
        = false :=
  ⟨(getOgImage_priority relOgPage).2.2 _ rfl (by decide),
   (getOgImage_priority relOgPage).2.1 _
     ((getOgImage_priority relOgPage).2.2 _ rfl (by decide))⟩

/-- Counterexample to claim C7: `guessImageType` tests substring containment,
not the URL's extension.  A URL whose lowercased extension is `.jpg` but
which contains `.png` earlier is classified `image/png`, while the
extension rule of the claim yields `image/jpeg`. -/
theorem guessImageType_extension_counterexample :
    guessImageType "https://img.tmz.com/a.png.jpg".data = "image/png".data
    ∧ extensionMimeType "https://img.tmz.com/a.png.jpg".data
        = "image/jpeg".data
    ∧ guessImageType "https://img.tmz.com/a.png.jpg".data ≠
        extensionMimeType "https://img.tmz.com/a.png.jpg".data :=
  ⟨by decide, by decide, by decide⟩

/-- Claim C7, amended: `guessImageType` returns `image/png` exactly when the
lowercased URL contains `.png` anywhere, `image/webp` exactly when it
contains `.webp` but not `.png`, and `image/jpeg` exactly when it contains
neither (so a lowercased extension of `.png` or `.webp` still maps to PNG
resp. WebP, but so does any other occurrence of those substrings). -/
theorem guessImageType_contains (url : Str) :
    (guessImageType url = "image/png".data
        ↔ hasSub (toLowerStr url) ".png".data = true)
    ∧ (guessImageType url = "image/webp".data
        ↔ (hasSub (toLowerStr url) ".png".data = false
            ∧ hasSub (toLowerStr url) ".webp".data = true))
    ∧ (guessImageType url = "image/jpeg".data
        ↔ (hasSub (toLowerStr url) ".png".data = false
            ∧ hasSub (toLowerStr url) ".webp".data = false)) := by
  have hd1 : ("image/png".data : Str) ≠ "image/webp".data := by decide
  have hd2 : ("image/png".data : Str) ≠ "image/jpeg".data := by decide
  have hd3 : ("image/webp".data : Str) ≠ "image/jpeg".data := by decide
  by_cases h1 : hasSub (toLowerStr url) ".png".data
  · refine ⟨?_, ?_, ?_⟩ <;> simp [guessImageType, h1, hd1, hd2]
  · by_cases h2 : hasSub (toLowerStr url) ".webp".data
    · refine ⟨?_, ?_, ?_⟩ <;>
        simp [guessImageType, h1, h2, hd1.symm, hd3, Bool.not_eq_true]
    · refine ⟨?_, ?_, ?_⟩ <;>
        simp [guessImageType, h1, h2, hd2.symm, hd3.symm, Bool.not_eq_true]

/-- Witness for the amended C7: applying the characterization at a URL with
an uppercase `.WEBP` extension shows the lowercased URL contains `.webp`
and not `.png`. -/
theorem guessImageType_contains_witness :
    hasSub (toLowerStr "https://img.tmz.com/a.WEBP".data) ".png".data = false
    ∧ hasSub (toLowerStr "https://img.tmz.com/a.WEBP".data) ".webp".data
        = true :=
  (guessImageType_contains "https://img.tmz.com/a.WEBP".data).2.1.mp (by decide)

/-- Claim C8: a candidate whose secondary fetch throws, or whose page yields
no image, is skipped and processing continues with the remaining candidates;
the only error `mainNews` ever raises is the insufficient-items one, so a
single candidate's failure never aborts the run. -/
theorem candidate_failure_skipped :
    (∀ (resolve : Str → Except Unit ArticlePage) (item : NewsItem)
       (rest : List NewsItem) (k : Nat) (e : Unit),
        resolve item.url = .error e →
        chooseItems resolve (item :: rest) k = chooseItems resolve rest k)
    ∧ (∀ (resolve : Str → Except Unit ArticlePage) (item : NewsItem)
         (rest : List NewsItem) (k : Nat) (page : ArticlePage),
        resolve item.url = .ok page → getOgImage page = none →
        chooseItems resolve (item :: rest) k = chooseItems resolve rest k)
    ∧ (∀ (urlset : List NewsUrlEntry) (resolve : Str → Except Unit ArticlePage)
         (msg : Str),
        mainNews urlset resolve = .error msg →
        msg = newsInsufficientMsg
          (chooseItems resolve ((getLatestNewsItems urlset).take 25)
            MAX_ITEMS).length) := by
  refine ⟨?_, ?_, ?_⟩
  · intro resolve item rest k e he
    cases k with
    | zero => simp [chooseItems]
    | succ k => simp [chooseItems, he]
  · intro resolve item rest k page hp hi
    cases k with
    | zero => simp [chooseItems]
    | succ k => simp [chooseItems, hp, hi]
  · intro urlset resolve msg hmsg
    simp only [mainNews] at hmsg
    by_cases hlt : (chooseItems resolve ((getLatestNewsItems urlset).take 25)
        MAX_ITEMS).length < MAX_ITEMS
    · rw [if_pos hlt] at hmsg
      cases hmsg
      rfl
    · rw [if_neg hlt] at hmsg
      cases hmsg

/-- Witness for C8: a failing fetch and an imageless page are each skipped on
a concrete pool, and the error of a concrete failing run is the
insufficient-items message. -/
theorem candidate_failure_skipped_witness :
    chooseItems (fun _ => .error ()) [wNewsItem] MAX_ITEMS
        = chooseItems (fun _ => .error ()) [] MAX_ITEMS
    ∧ chooseItems (fun _ => .ok emptyPage) [wNewsItem] MAX_ITEMS
        = chooseItems (fun _ => .ok emptyPage) [] MAX_ITEMS
    ∧ newsInsufficientMsg 0 = newsInsufficientMsg
        (chooseItems (fun _ => .error ()) ((getLatestNewsItems []).take 25)
          MAX_ITEMS).length :=
  ⟨candidate_failure_skipped.1 _ wNewsItem [] MAX_ITEMS () rfl,
   candidate_failure_skipped.2.1 _ wNewsItem [] MAX_ITEMS emptyPage rfl rfl,
   candidate_failure_skipped.2.2 [] _ (newsInsufficientMsg 0) rfl⟩

/-- Claim C9: the sitemap-variant pipeline is deterministic on fixed source
documents.  The only run-to-run variation is the clock (`new Date()`), and
two runs on byte-identical sitemap-index and article-sitemap documents — at
arbitrary clock readings — produce the same error-or-success outcome and the
same ordered list of (url, title, imageUrl) tuples. -/
theorem sitemap_pipeline_deterministic (indexDoc : List SitemapNode)
    (fetchArticle : Str → List UrlNode) (now1 now2 : Nat) :
    (mainSitemap indexDoc fetchArticle now1).map (List.map itemTuple)
      = (mainSitemap indexDoc fetchArticle now2).map (List.map itemTuple) := by
  cases hparse : parseSitemapIndex indexDoc with
  | nil => simp [mainSitemap, hparse]
  | cons newest rest =>
    simp only [mainSitemap, hparse]
    by_cases hlt :
        (sitemapTop (parseArticleSitemap (fetchArticle newest))).length < MAX_ITEMS
    · rw [if_pos hlt, if_pos hlt]
    · rw [if_neg hlt, if_neg hlt]
      exact buildFeedItems_tuples now1 now2 _

/-- Claim C10: the sitemap variant's title derivation (last non-empty
slash-separated segment of the URL, hyphens replaced by spaces) yields a
non-empty title for every URL containing a character other than `/`, is
undefined (raises) on a non-empty URL consisting only of `/`, and such a
failure surfaces as the run's error when building the feed items. -/
theorem fallbackTitle_partiality (url : Str) :
    ((∃ c, c ∈ url ∧ c ≠ '/') →
        ∃ t, fallbackTitle url = some t ∧ t ≠ [])
    ∧ ((url ≠ [] ∧ ∀ c ∈ url, c = '/') → fallbackTitle url = none)
    ∧ (∀ (now : Nat) (item : ArticleItem) (rest : List ArticleItem),
        fallbackTitle item.url = none →
        buildFeedItems now (item :: rest) = .error typeErrorMsg) := by
  refine ⟨?_, ?_, ?_⟩
  · rintro ⟨c, hc, hne⟩
    rcases (splitSlash_exists_nonempty url).mpr ⟨c, hc, hne⟩ with ⟨seg, hmem, hne2⟩
    have hfil : (splitSlash url).filter (fun seg => !seg.isEmpty) ≠ [] := by
      intro hnil
      have hforall := List.filter_eq_nil_iff.mp hnil seg hmem
      simp only [Bool.not_eq_true, Bool.not_eq_false'] at hforall
      exact hne2 (by simpa using hforall)
    rcases hlast : ((splitSlash url).filter (fun seg => !seg.isEmpty)).getLast? with
      _ | seg2
    · exact absurd (List.getLast?_eq_none_iff.mp hlast) hfil
    · have hm2 : seg2 ∈ (splitSlash url).filter (fun seg => !seg.isEmpty) :=
        List.mem_of_mem_getLast? (by simp [hlast])
      have hs2 : seg2 ≠ [] := by
        have hb := (List.mem_filter.mp hm2).2
        simp only [Bool.not_eq_true'] at hb
        simpa using hb
      refine ⟨seg2.map (fun c => if c = '-' then ' ' else c), ?_, ?_⟩
      · simp [fallbackTitle, hlast]
      · intro hmap
        exact hs2 (List.map_eq_nil_iff.mp hmap)
  · rintro ⟨hne, hall⟩
    have hfil : (splitSlash url).filter (fun seg => !seg.isEmpty) = [] := by
      rw [List.filter_eq_nil_iff]
      intro a ha hbool
      have hnonempty : a ≠ [] := by
        simp only [Bool.not_eq_true'] at hbool
        simpa using hbool
      have := (splitSlash_exists_nonempty url).mp ⟨a, ha, hnonempty⟩
      rcases this with ⟨c, hc, hcne⟩
      exact hcne (hall c hc)
    simp [fallbackTitle, hfil]
  · intro now item rest h
    simp [buildFeedItems, h]

/-- Witness for C10: a story URL yields the non-empty title derived from its
slug, the all-slash URL yields no title, and the run on an item with that
URL fails with the modelled TypeError. -/
theorem fallbackTitle_partiality_witness :
    (∃ t, fallbackTitle "https://www.tmz.com/cat-town".data = some t ∧ t ≠ [])
    ∧ fallbackTitle "///".data = none
    ∧ buildFeedItems 0 [⟨"///".data, "https://img.tmz.com/1.jpg".data⟩]
        = .error typeErrorMsg :=
  ⟨(fallbackTitle_partiality "https://www.tmz.com/cat-town".data).1
      ⟨'h', by decide, by decide⟩,
   (fallbackTitle_partiality "///".data).2.1 ⟨by decide, by decide⟩,
   (fallbackTitle_partiality "///".data).2.2 0
      ⟨"///".data, "https://img.tmz.com/1.jpg".data⟩ [] (by decide)⟩

end TmzRss
